import Mathlib

/-!
Shallow embedding of `gimli.c` (chrisvarga/gimli), a small host-metrics
daemon.  Samplers read text lines or structured records from the OS and
write into a shared `gimli_t` record; a per-connection handler routes a
request line to a JSON body rendered from that record.

Modelling conventions:
* C unsigned counters become `Nat`; `long double` / `float` arithmetic
  becomes `Rat` (exact field arithmetic; printf rounding is modelled where
  a body is rendered).
* Each sampler's OS input (the parsed line, the `sysinfo` record, the
  `getifaddrs` list) is passed as an explicit argument; `none` models the
  paths where the source could not be opened or read, which in the C code
  return `G_FAIL` before anything is written into the shared record.
* The fixed `net` array of `gimli_t` is modelled as a total map
  `Nat -> netif_t` so that the loop's unchecked writes can be observed at
  any index; the capacity itself is a build-time constant in `gimli.h`
  (not among the reviewed sources) and is kept abstract.
-/

/-- Return status of the samplers (`status_t` in `gimli.h`, used as
`G_OK` / `G_FAIL` throughout `gimli.c`). -/
inductive status_t where
  | G_OK
  | G_FAIL
  deriving DecidableEq, Repr

/-- The five cumulative CPU counters read from the first line of
`/proc/stat` (`gimli_cpu_t`): user, nice, system, idle, iowait. -/
structure gimli_cpu_t where
  u : ℕ
  n : ℕ
  s : ℕ
  i : ℕ
  w : ℕ
  deriving DecidableEq, Repr

/-- One entry of the interface table: name and numeric IPv4 address. -/
structure netif_t where
  ifname : String
  ipv4 : String
  deriving DecidableEq, Repr

/-- The record filled by `sysinfo(2)`, fields as used by `get_meminfo`. -/
structure sysinfo_t where
  uptime : ℕ
  totalram : ℕ
  freeram : ℕ
  sharedram : ℕ
  bufferram : ℕ
  totalswap : ℕ
  freeswap : ℕ
  procs : ℕ
  totalhigh : ℕ
  freehigh : ℕ
  mem_unit : ℕ
  deriving DecidableEq, Repr

/-- One record of the `getifaddrs` enumeration as consumed by
`get_netif`: interface name, address family of `ifa_addr` (`none`
models a NULL `ifa_addr`), and the numeric-host string produced by
`getnameinfo` for that address (`none` models `getnameinfo` failing). -/
structure ifaddrs_t where
  ifa_name : String
  family : Option ℕ
  nameinfo : Option String
  deriving DecidableEq, Repr

/-- `AF_INET` from the socket headers. -/
def AF_INET : ℕ := 2

/-- `AF_INET6` from the socket headers. -/
def AF_INET6 : ℕ := 10

/-- The shared global `gimli_t gimli`: cpu percentages (array `cpu[5]`
indexed by `CPU_USER` .. `CPU_IOWAIT`, here named fields), the three load
averages (`load[3]`), the meminfo array (`meminfo[9]` indexed `TOTAL_RAM`
.. `MEM_UNIT`, here named fields), process count, uptime seconds, core
count, interface count and interface table. -/
structure Gimli where
  cpuUser : ℚ
  cpuNice : ℚ
  cpuSystem : ℚ
  cpuIdle : ℚ
  cpuIowait : ℚ
  load0 : ℚ
  load1 : ℚ
  load2 : ℚ
  totalram : ℕ
  freeram : ℕ
  sharedram : ℕ
  bufferram : ℕ
  totalswap : ℕ
  freeswap : ℕ
  totalhigh : ℕ
  freehigh : ℕ
  memUnit : ℕ
  procs : ℕ
  uptime : ℕ
  cores : ℤ
  netifs : ℕ
  net : ℕ → netif_t

/-- The zero-initialised global (`gimli_t gimli;` at file scope is
zero-valued at process start). -/
def gimli0 : Gimli :=
  { cpuUser := 0, cpuNice := 0, cpuSystem := 0, cpuIdle := 0, cpuIowait := 0
    load0 := 0, load1 := 0, load2 := 0
    totalram := 0, freeram := 0, sharedram := 0, bufferram := 0
    totalswap := 0, freeswap := 0, totalhigh := 0, freehigh := 0
    memUnit := 0, procs := 0, uptime := 0, cores := 0, netifs := 0
    net := fun _ => { ifname := "", ipv4 := "" } }

/-- One per-field delta of `get_cpu_util` (lines 52-56):
`new > old ? new - old : old - new`. -/
def absdiff (newv oldv : ℕ) : ℕ := if newv > oldv then newv - oldv else oldv - newv

/-- The `diff` record computed by `get_cpu_util` from its two polls. -/
def cpu_diff (old newp : gimli_cpu_t) : gimli_cpu_t :=
  { u := absdiff newp.u old.u
    n := absdiff newp.n old.n
    s := absdiff newp.s old.s
    i := absdiff newp.i old.i
    w := absdiff newp.w old.w }

/-- The total `tot = diff.u + diff.n + diff.s + diff.i + diff.w`
(line 57). -/
def cpu_tot (d : gimli_cpu_t) : ℕ := d.u + d.n + d.s + d.i + d.w

/-- `get_cpu_util` (lines 27-67).  `polls = none` models every failure
path before the percentages are computed (fopen, fgets, a sscanf that
matched fewer than 4 fields, fclose; lines 36-49), all of which return
`G_FAIL` without touching the shared record.  `polls = some (old, newp)`
carries the two parsed counter samples; the function then computes the
per-field absolute deltas, their total, and unconditionally stores
`diff / tot * 100` into the five cpu fields and returns `G_OK` — there is
no check that `tot` is nonzero (in C a zero `tot` makes each quotient
NaN; in this rational model division by zero yields 0). -/
def get_cpu_util (g : Gimli) (polls : Option (gimli_cpu_t × gimli_cpu_t)) :
    status_t × Gimli :=
  match polls with
  | none => (status_t.G_FAIL, g)
  | some (old, newp) =>
    let diff := cpu_diff old newp
    let tot : ℚ := (cpu_tot diff : ℚ)
    (status_t.G_OK,
      { g with
        cpuUser := ((diff.u : ℚ) / tot) * 100
        cpuNice := ((diff.n : ℚ) / tot) * 100
        cpuSystem := ((diff.s : ℚ) / tot) * 100
        cpuIdle := ((diff.i : ℚ) / tot) * 100
        cpuIowait := ((diff.w : ℚ) / tot) * 100 })

/-- The writes `sscanf` performs through `&gimli->load[0..2]` (line 90):
each successfully matched value is stored the moment it is matched, so a
line that matches only a prefix of the three conversions has already
overwritten that prefix of the load fields by the time the match count is
inspected. -/
def writeLoad (g : Gimli) : List ℚ → Gimli
  | [] => g
  | [a] => { g with load0 := a }
  | [a, b] => { g with load0 := a, load1 := b }
  | a :: b :: c :: _ => { g with load0 := a, load1 := b, load2 := c }

/-- `get_loadavg` (lines 81-96).  `input = none` models fopen/fgets
failing (lines 88-89), before any write.  `input = some vs` carries the
values the three `sscanf` conversions matched, in order; the function
stores them as it parses, fails when fewer than 2 matched, and otherwise
fails only if `fclose` fails (`closeOk = false`). -/
def get_loadavg (g : Gimli) (input : Option (List ℚ)) (closeOk : Bool) :
    status_t × Gimli :=
  match input with
  | none => (status_t.G_FAIL, g)
  | some vs =>
    let g' := writeLoad g vs
    if vs.length < 2 then (status_t.G_FAIL, g')
    else if closeOk then (status_t.G_OK, g') else (status_t.G_FAIL, g')

/-- `get_meminfo` (lines 106-128).  `info = none` models `sysinfo`
failing; otherwise every byte quantity is scaled by `mem_unit` and
converted to kilobytes, and procs/uptime are recorded verbatim. -/
def get_meminfo (g : Gimli) (info : Option sysinfo_t) : status_t × Gimli :=
  match info with
  | none => (status_t.G_FAIL, g)
  | some m =>
    (status_t.G_OK,
      { g with
        totalram := m.totalram * m.mem_unit / 1024
        freeram := m.freeram * m.mem_unit / 1024
        sharedram := m.sharedram * m.mem_unit / 1024
        bufferram := m.bufferram * m.mem_unit / 1024
        totalswap := m.totalswap * m.mem_unit / 1024
        freeswap := m.freeswap * m.mem_unit / 1024
        totalhigh := m.totalhigh * m.mem_unit / 1024
        freehigh := m.freehigh * m.mem_unit / 1024
        memUnit := m.mem_unit
        procs := m.procs
        uptime := m.uptime })

/-- The interface loop of `get_netif` (lines 148-174).  For every entry
whose `ifa_addr` is non-NULL with family `AF_INET`, the name is written
into slot `netifs` (line 151), then `getnameinfo` is consulted: on
failure the function returns `G_FAIL` on the spot (lines 157-160, the
name already written); on success the address is written into the same
slot and `netifs` is incremented (lines 161-162).  No bound of any kind
is checked against the slot index. -/
def netifAux : Gimli → List ifaddrs_t → status_t × Gimli
  | g, [] => (status_t.G_OK, g)
  | g, ifa :: rest =>
    if ifa.family = some AF_INET then
      let slotName : netif_t := { g.net g.netifs with ifname := ifa.ifa_name }
      let g1 : Gimli := { g with net := Function.update g.net g.netifs slotName }
      match ifa.nameinfo with
      | none => (status_t.G_FAIL, g1)
      | some host =>
        let slotAddr : netif_t := { g1.net g1.netifs with ipv4 := host }
        let g2 : Gimli :=
          { g1 with
            net := Function.update g1.net g1.netifs slotAddr
            netifs := g1.netifs + 1 }
        netifAux g2 rest
    else netifAux g rest

/-- `get_netif` (lines 135-178).  `ifaddrs = none` models `getifaddrs`
failing (lines 142-145), before any write; otherwise the interface count
is reset to 0 (line 147) and the enumeration is walked by the loop. -/
def get_netif (g : Gimli) (ifaddrs : Option (List ifaddrs_t)) :
    status_t × Gimli :=
  match ifaddrs with
  | none => (status_t.G_FAIL, g)
  | some lst => netifAux { g with netifs := 0 } lst

/-- The entries of an enumeration that the loop retains: non-NULL
address with family `AF_INET`. -/
def netifFilter (lst : List ifaddrs_t) : List ifaddrs_t :=
  lst.filter fun ifa => decide (ifa.family = some AF_INET)

/-- The `netif_t` the loop stores for a retained record. -/
def ifToNet (ifa : ifaddrs_t) : netif_t :=
  { ifname := ifa.ifa_name, ipv4 := ifa.nameinfo.getD "" }

/-- The logically-live portion of the interface table: the first
`netifs` slots, exactly the entries the rendering loops at lines 236 and
265 walk. -/
def storedNet (g : Gimli) : List netif_t :=
  (List.range g.netifs).map g.net

/-- Proof-side abbreviation for the combined effect of one successful
loop iteration of `get_netif`: store an entry in slot `netifs` and
increment the count. -/
def pushNet (g : Gimli) (nf : netif_t) : Gimli :=
  { g with net := Function.update g.net g.netifs nf, netifs := g.netifs + 1 }

/-- Startup write of `gimli_mine_cpu` (line 384): the core count is set
once from `sysconf(_SC_NPROCESSORS_CONF)` before the sampling loop. -/
def gimli_mine_cpu_start (g : Gimli) (nproc : ℤ) : Gimli :=
  { g with cores := nproc }

/-- One iteration of one of the four mine threads, with its OS input
made explicit.  This is every mutation the shared record ever undergoes
after startup. -/
inductive MineStep where
  | cpu (polls : Option (gimli_cpu_t × gimli_cpu_t))
  | load (input : Option (List ℚ)) (closeOk : Bool)
  | mem (info : Option sysinfo_t)
  | netif (ifaddrs : Option (List ifaddrs_t))

/-- Apply one sampler iteration to the shared record. -/
def applyStep (g : Gimli) : MineStep → Gimli
  | MineStep.cpu polls => (get_cpu_util g polls).2
  | MineStep.load input closeOk => (get_loadavg g input closeOk).2
  | MineStep.mem info => (get_meminfo g info).2
  | MineStep.netif ifaddrs => (get_netif g ifaddrs).2

/-- Character of a C string at index `i`, with the NUL terminator (and
anything past it) read as 0.  Request buffers are modelled as the list of
bytes before the terminator. -/
def cAt (s : List Char) (i : ℕ) : ℕ := (s[i]?.map Char.toNat).getD 0

/-- `strncmp(a, b, n) == 0` for strings without interior NUL: the first
`n` characters agree, positions past a string's end reading as NUL. -/
def strncmp0 (a b : List Char) (n : ℕ) : Bool :=
  (List.range n).all fun i => cAt a i == cAt b i

/-- The routing outcome of `handle_request`'s if/else chain. -/
inductive Route where
  | cpu
  | load
  | uptime
  | procs
  | cores
  | net
  | aggregate
  | err
  deriving DecidableEq, Repr

/-- The dispatch chain of `handle_request` (lines 195-281): each test is
`strncmp(buf, lit, sizeof lit - 2)`, i.e. the literal is compared over
its length minus one characters (`sizeof` counts the NUL, so
`sizeof lit - 2 = length lit - 1`); the tests are made in source order
and the first that matches wins; a request matching none falls through
to the error body. -/
def routeOf (buf : List Char) : Route :=
  if strncmp0 buf "GET /cpu".toList ("GET /cpu".length + 1 - 2) then Route.cpu
  else if strncmp0 buf "GET /load".toList ("GET /load".length + 1 - 2) then Route.load
  else if strncmp0 buf "GET /uptime".toList ("GET /uptime".length + 1 - 2) then Route.uptime
  else if strncmp0 buf "GET /procs".toList ("GET /procs".length + 1 - 2) then Route.procs
  else if strncmp0 buf "GET /cores".toList ("GET /cores".length + 1 - 2) then Route.cores
  else if strncmp0 buf "GET /net".toList ("GET /net".length + 1 - 2) then Route.net
  else if strncmp0 buf "GET / HTTP".toList ("GET / HTTP".length + 1 - 2) then Route.aggregate
  else Route.err

/-- The routing table in source order, literal beside its route; used to
state that the chain is first-match-wins over this ordered list. -/
def routeTable : List (List Char × Route) :=
  [("GET /cpu".toList, Route.cpu),
   ("GET /load".toList, Route.load),
   ("GET /uptime".toList, Route.uptime),
   ("GET /procs".toList, Route.procs),
   ("GET /cores".toList, Route.cores),
   ("GET /net".toList, Route.net),
   ("GET / HTTP".toList, Route.aggregate)]

/-- First-match-wins scan of a routing table, each literal compared over
its length minus one characters; `Route.err` when nothing matches. -/
def firstMatch (buf : List Char) : List (List Char × Route) → Route
  | [] => Route.err
  | (lit, r) :: rest =>
    if strncmp0 buf lit (lit.length - 1) then r else firstMatch buf rest

/-- Left-pad a digit string with zeros to width `w` (printf `0`-flag). -/
def padZeroTo (w : ℕ) (s : String) : String :=
  if s.length < w then String.mk (List.replicate (w - s.length) '0') ++ s else s

/-- printf `"%02lu"`: decimal, zero-padded to width 2. -/
def pad2 (n : ℕ) : String := padZeroTo 2 (toString n)

/-- Fixed-point rendering of a rational with `d` fractional digits,
modelling printf `"%.df"` (round to nearest). -/
def fmtFixed (d : ℕ) (q : ℚ) : String :=
  let scaled : ℤ := Int.floor (q * (10 : ℚ) ^ d + 1 / 2)
  let sign := if scaled < 0 then "-" else ""
  let ip := scaled.natAbs / 10 ^ d
  let fp := scaled.natAbs % 10 ^ d
  if d = 0 then sign ++ toString ip
  else sign ++ toString ip ++ "." ++ padZeroTo d (toString fp)

/-- Body of the fall-through else branch (line 279): note the space
after the colon in the source literal. -/
def errBody : String := "\x7b\"err\": 1\x7d\r\n"

/-- Body of the `/cpu` branch (lines 196-208); the format arguments pair
`us` with `cpu[CPU_USER]`, `sy` with `cpu[CPU_SYSTEM]`, `id` with
`cpu[CPU_IDLE]`, `wa` with `cpu[CPU_IOWAIT]`, `ni` with
`cpu[CPU_NICE]`. -/
def cpuBody (g : Gimli) : String :=
  "\x7b\"cpu\":\x7b\"us\":" ++ fmtFixed 1 g.cpuUser
    ++ ",\"sy\":" ++ fmtFixed 1 g.cpuSystem
    ++ ",\"id\":" ++ fmtFixed 1 g.cpuIdle
    ++ ",\"wa\":" ++ fmtFixed 1 g.cpuIowait
    ++ ",\"ni\":" ++ fmtFixed 1 g.cpuNice
    ++ "\x7d\x7d\r\n"

/-- Body of the `/load` branch (lines 210-215), `"%.2f"` with
comma-space separators. -/
def loadBody (g : Gimli) : String :=
  "\x7b\"load\":[" ++ fmtFixed 2 g.load0 ++ ", " ++ fmtFixed 2 g.load1
    ++ ", " ++ fmtFixed 2 g.load2 ++ "]\x7d\r\n"

/-- Body of the `/uptime` branch (lines 217-221): format
`"%lu, %01lu, %02lu"` over `uptime/86400`, `uptime/3600%24`,
`uptime/60%60` — comma-space separators, minutes zero-padded to two
digits (`%01lu` never pads, every number having at least one digit). -/
def uptimeBody (g : Gimli) : String :=
  "\x7b\"uptime\":[" ++ toString (g.uptime / 86400) ++ ", "
    ++ toString (g.uptime / 3600 % 24) ++ ", "
    ++ pad2 (g.uptime / 60 % 60) ++ "]\x7d\r\n"

/-- Body of the `/procs` branch (lines 223-227). -/
def procsBody (g : Gimli) : String :=
  "\x7b\"procs\":" ++ toString g.procs ++ "\x7d\r\n"

/-- Body of the `/cores` branch (lines 229-233), `"%d"` over
`gimli.cores`. -/
def coresBody (g : Gimli) : String :=
  "\x7b\"cores\":" ++ toString g.cores ++ "\x7d\r\n"

/-- Modelled from the spec: the `IFNAME_JSON` format macro lives in
`gimli.h`, which is not among the reviewed sources; the spec gives the
`/net` entry shape as a pair of `ifname` and `ipv4` string fields. -/
def IFNAME_JSON (ifname ipv4 : String) : String :=
  "\x7b\"ifname\":\"" ++ ifname ++ "\",\"ipv4\":\"" ++ ipv4 ++ "\"\x7d"

/-- Body of the `/net` branch (lines 235-243): the first `netifs` table
entries rendered with `IFNAME_JSON`, comma-separated. -/
def netBody (g : Gimli) : String :=
  "\x7b\"netifs\":["
    ++ String.intercalate ","
        ((storedNet g).map fun nf => IFNAME_JSON nf.ifname nf.ipv4)
    ++ "]\x7d\r\n"

/-- Modelled from the spec: the `IFNAME_PRETTY_JSON` /
`IFNAME_PRETTY_FIRST_JSON` macros live in the missing `gimli.h`; the
spec gives the same name/address pair shape, pretty-printed.  The
first-entry variant (line 267) is modelled identically. -/
def IFNAME_PRETTY_JSON (ifname ipv4 : String) : String :=
  "\x7b\"ifname\": \"" ++ ifname ++ "\", \"ipv4\": \"" ++ ipv4 ++ "\"\x7d"

/-- Body of the aggregate `GET / HTTP` branch (lines 245-277). -/
def aggregateBody (g : Gimli) : String :=
  "\x7b\n    \"cpu\": \x7b\n        \"us\": " ++ fmtFixed 1 g.cpuUser
    ++ ",\n        \"sy\": " ++ fmtFixed 1 g.cpuSystem
    ++ ",\n        \"id\": " ++ fmtFixed 1 g.cpuIdle
    ++ ",\n        \"wa\": " ++ fmtFixed 1 g.cpuIowait
    ++ ",\n        \"ni\": " ++ fmtFixed 1 g.cpuNice
    ++ "\n    \x7d,\n    \"load\": [" ++ fmtFixed 2 g.load0
    ++ ", " ++ fmtFixed 2 g.load1 ++ ", " ++ fmtFixed 2 g.load2
    ++ "],\n    \"uptime\": [" ++ toString (g.uptime / 86400)
    ++ ", " ++ toString (g.uptime / 3600 % 24)
    ++ ", " ++ pad2 (g.uptime / 60 % 60)
    ++ "],\n    \"procs\": " ++ toString g.procs
    ++ ",\n    \"cores\": " ++ toString g.cores
    ++ ",\n    \"netifs\": ["
    ++ String.intercalate ", "
        ((storedNet g).map fun nf => IFNAME_PRETTY_JSON nf.ifname nf.ipv4)
    ++ "]\n\x7d\r\n"

/-- `handle_request` (lines 192-281): dispatch on the if/else chain and
render the selected body from the shared record. -/
def handle_request (g : Gimli) (buf : List Char) : String :=
  match routeOf buf with
  | Route.cpu => cpuBody g
  | Route.load => loadBody g
  | Route.uptime => uptimeBody g
  | Route.procs => procsBody g
  | Route.cores => coresBody g
  | Route.net => netBody g
  | Route.aggregate => aggregateBody g
  | Route.err => errBody

/-- `sizeof buf` in `handle_connection` (line 287): the receive buffer
holds 1024 bytes, valid indices 0 .. 1023. -/
def BUF_SIZE : ℕ := 1024

/-- The index at which `handle_connection` writes the terminating NUL
(lines 299-303), `buf` being the `len` received bytes (`len >= 1`, the
nonpositive case having returned at line 293): index `len - 1` when the
last byte is a newline, index `len` otherwise. -/
def nul_index (buf : List Char) : ℕ :=
  if buf.getLast? = some '\n' then buf.length - 1 else buf.length

/-- Concrete CPU sample used by witnesses: all counters zero. -/
def cpuS0 : gimli_cpu_t := { u := 0, n := 0, s := 0, i := 0, w := 0 }

/-- Concrete CPU sample used by witnesses: every counter advanced by
one tick. -/
def cpuS1 : gimli_cpu_t := { u := 1, n := 1, s := 1, i := 1, w := 1 }

/-- A concrete nonzero CPU sample, used twice to make two identical
polls. -/
def cpuSame : gimli_cpu_t := { u := 10, n := 20, s := 30, i := 40, w := 50 }

/-- A state with nonzero cpu percentages, to observe the zero-delta
cycle overwriting them. -/
def gC1 : Gimli :=
  { gimli0 with cpuUser := 25, cpuSystem := 25, cpuIdle := 25, cpuIowait := 25 }

/-- A state with nonzero load averages, to observe a failing load cycle
overwriting one of them. -/
def gC4 : Gimli := { gimli0 with load0 := 1, load1 := 2, load2 := 3 }

/-- An enumeration record with an assigned IPv4 address. -/
def ifaV4 : ifaddrs_t :=
  { ifa_name := "eth0", family := some AF_INET, nameinfo := some "10.0.0.1" }

/-- An enumeration record carrying only an IPv6 address. -/
def ifaV6 : ifaddrs_t :=
  { ifa_name := "eth1", family := some AF_INET6, nameinfo := some "fe80::1" }

/-- A two-interface enumeration: one IPv4, one IPv6-only. -/
def enumW : List ifaddrs_t := [ifaV4, ifaV6]

/-- A successful loop iteration of `get_netif` collapses to `pushNet`:
the two consecutive writes into the same slot leave exactly the
name/address pair there. -/
theorem netifAux_cons_inet (g : Gimli) (ifa : ifaddrs_t) (rest : List ifaddrs_t)
    (hf : ifa.family = some AF_INET) (host : String)
    (hh : ifa.nameinfo = some host) :
    netifAux g (ifa :: rest)
      = netifAux (pushNet g { ifname := ifa.ifa_name, ipv4 := host }) rest := by
  simp only [netifAux, hf, if_pos, hh]
  congr 1
  simp [pushNet, Function.update_idem, Function.update_same]

/-- Skipping iteration of the loop: a record without an IPv4 address
leaves the state untouched. -/
theorem netifAux_cons_skip (g : Gimli) (ifa : ifaddrs_t) (rest : List ifaddrs_t)
    (hf : ¬ ifa.family = some AF_INET) :
    netifAux g (ifa :: rest) = netifAux g rest := by
  simp only [netifAux, hf, if_false]

/-- Storing one entry appends it to the live portion of the table. -/
theorem storedNet_push (g : Gimli) (nf : netif_t) :
    storedNet (pushNet g nf) = storedNet g ++ [nf] := by
  unfold storedNet pushNet
  simp only [List.range_succ, List.map_append, List.map_cons, List.map_nil,
    Function.update_same]
  congr 1
  apply List.map_congr_left
  intro j hj
  exact Function.update_noteq (Nat.ne_of_lt (List.mem_range.mp hj)) _ _

/-- The retained-entry list of a cons whose head has an IPv4 address. -/
theorem netifFilter_cons_inet (ifa : ifaddrs_t) (rest : List ifaddrs_t)
    (hf : ifa.family = some AF_INET) :
    netifFilter (ifa :: rest) = ifa :: netifFilter rest := by
  simp [netifFilter, List.filter_cons, hf]

/-- The retained-entry list of a cons whose head carries no IPv4
address. -/
theorem netifFilter_cons_skip (ifa : ifaddrs_t) (rest : List ifaddrs_t)
    (hf : ¬ ifa.family = some AF_INET) :
    netifFilter (ifa :: rest) = netifFilter rest := by
  simp [netifFilter, List.filter_cons, hf]

/-- Master lemma for the interface loop: when `getnameinfo` succeeds on
every retained record, the loop succeeds, counts exactly the retained
records, and appends exactly their name/address pairs to the live
table. -/
theorem netifAux_stored (lst : List ifaddrs_t) : ∀ g : Gimli,
    (∀ ifa ∈ lst, ifa.family = some AF_INET → ifa.nameinfo ≠ none) →
    (netifAux g lst).1 = status_t.G_OK ∧
    (netifAux g lst).2.netifs = g.netifs + (netifFilter lst).length ∧
    storedNet (netifAux g lst).2 = storedNet g ++ (netifFilter lst).map ifToNet := by
  induction lst with
  | nil =>
    intro g _
    exact ⟨rfl, by simp [netifAux, netifFilter], by simp [netifAux, netifFilter]⟩
  | cons ifa rest ih =>
    intro g h
    by_cases hf : ifa.family = some AF_INET
    · have hni : ifa.nameinfo ≠ none := h ifa (List.mem_cons_self _ _) hf
      obtain ⟨host, hh⟩ : ∃ host, ifa.nameinfo = some host := by
        cases hx : ifa.nameinfo with
        | none => exact absurd hx hni
        | some y => exact ⟨y, rfl⟩
      rw [netifAux_cons_inet g ifa rest hf host hh]
      obtain ⟨h1, h2, h3⟩ :=
        ih (pushNet g { ifname := ifa.ifa_name, ipv4 := host })
          (fun a ha hfa => h a (List.mem_cons_of_mem _ ha) hfa)
      refine ⟨h1, ?_, ?_⟩
      · rw [h2, netifFilter_cons_inet ifa rest hf]
        show g.netifs + 1 + (netifFilter rest).length = _
        simp [List.length_cons]
        omega
      · rw [h3, storedNet_push, netifFilter_cons_inet ifa rest hf]
        have hfe : ifToNet ifa = { ifname := ifa.ifa_name, ipv4 := host } := by
          simp [ifToNet, hh]
        simp [hfe]
    · rw [netifAux_cons_skip g ifa rest hf]
      obtain ⟨h1, h2, h3⟩ := ih g (fun a ha hfa => h a (List.mem_cons_of_mem _ ha) hfa)
      rw [netifFilter_cons_skip ifa rest hf]
      exact ⟨h1, h2, h3⟩

/-- The interface loop never touches the core count, on any path. -/
theorem netifAux_cores (lst : List ifaddrs_t) : ∀ g : Gimli,
    (netifAux g lst).2.cores = g.cores := by
  induction lst with
  | nil => intro g; rfl
  | cons ifa rest ih =>
    intro g
    by_cases hf : ifa.family = some AF_INET
    · cases hh : ifa.nameinfo with
      | none => simp [netifAux, hf, hh]
      | some host => rw [netifAux_cons_inet g ifa rest hf host hh]; exact ih _
    · rw [netifAux_cons_skip g ifa rest hf]; exact ih g

/-- The partial `sscanf` writes never touch the core count. -/
theorem writeLoad_cores (g : Gimli) (vs : List ℚ) :
    (writeLoad g vs).cores = g.cores := by
  match vs with
  | [] => rfl
  | [a] => rfl
  | [a, b] => rfl
  | a :: b :: c :: rest => rfl

/-- No sampler iteration, on any of its paths, modifies the core
count. -/
theorem applyStep_cores (g : Gimli) (st : MineStep) :
    (applyStep g st).cores = g.cores := by
  cases st with
  | cpu polls => cases polls with
    | none => rfl
    | some p => rfl
  | load input closeOk =>
    cases input with
    | none => rfl
    | some vs =>
      show (get_loadavg g (some vs) closeOk).2.cores = g.cores
      unfold get_loadavg
      by_cases h2 : vs.length < 2
      · simp [h2, writeLoad_cores]
      · by_cases hc : closeOk <;> simp [h2, hc, writeLoad_cores]
  | mem info => cases info with
    | none => rfl
    | some m => rfl
  | netif ifaddrs =>
    cases ifaddrs with
    | none => rfl
    | some lst =>
      show (get_netif g (some lst)).2.cores = g.cores
      unfold get_netif
      exact netifAux_cores lst { g with netifs := 0 }

/-- Iterating sampler steps preserves the core count. -/
theorem foldl_applyStep_cores (steps : List MineStep) : ∀ g : Gimli,
    (steps.foldl applyStep g).cores = g.cores := by
  induction steps with
  | nil => intro g; rfl
  | cons st rest ih =>
    intro g
    rw [List.foldl_cons, ih (applyStep g st), applyStep_cores]

/-- Reading the live table at a live index reads the underlying map. -/
theorem storedNet_getElem (g : Gimli) (i : ℕ) (h : i < g.netifs) :
    (storedNet g)[i]? = some (g.net i) := by
  simp [storedNet, List.getElem?_map, List.getElem?_range h]

/-- Retaining a list of copies of an IPv4-carrying record keeps all of
them. -/
theorem netifFilter_replicate (k : ℕ) :
    netifFilter (List.replicate k ifaV4) = List.replicate k ifaV4 := by
  induction k with
  | zero => rfl
  | succ m ih =>
    rw [List.replicate_succ, netifFilter_cons_inet _ _ rfl, ih]

/-- Claim C1 (code bug, demonstration): when the two CPU samples are
identical, every per-field delta is zero and the delta sum is zero, yet
`get_cpu_util` performs the division anyway: it returns `G_OK` and
overwrites the five cpu fields with the unguarded quotients (NaN in the
C `long double` arithmetic, 0 in this rational model) instead of
signalling failure and leaving the previous percentages in place.
Evaluated at the concrete state `gC1` whose user percentage was 25. -/
theorem cpu_zero_delta_updates :
    cpu_tot (cpu_diff cpuSame cpuSame) = 0 ∧
    (get_cpu_util gC1 (some (cpuSame, cpuSame))).1 = status_t.G_OK ∧
    (get_cpu_util gC1 (some (cpuSame, cpuSame))).2.cpuUser = 0 ∧
    gC1.cpuUser = 25 := by
  refine ⟨rfl, rfl, ?_, rfl⟩
  norm_num [get_cpu_util, cpu_diff, cpu_tot, absdiff, cpuSame]

/-- Claim C2 (amended): the router is a first-match-wins scan of the
ordered table `GET /cpu`, `GET /load`, `GET /uptime`, `GET /procs`,
`GET /cores`, `GET /net`, `GET / HTTP`, each literal compared over its
length minus one characters (the C code passes `sizeof lit - 2` to
`strncmp`); a request matching no entry routes to the error body. -/
theorem route_first_match (buf : List Char) :
    routeOf buf = firstMatch buf routeTable := rfl

/-- Claim C2 counterexample: `GET /unknown` is a request of the form
`GET /...`, yet the router sends it to the error body, not to the final
aggregate route — the aggregate entry only matches requests whose first
nine characters are `GET / HTT`, so it is not a catch-all for every
`GET /...` request. -/
theorem unknown_not_aggregate :
    List.isPrefixOf "GET /".toList "GET /unknown".toList = true ∧
    routeOf "GET /unknown".toList = Route.err ∧
    Route.err ≠ Route.aggregate := by decide

/-- Claim C3 (amended): every request matching none of the routing
tests produces exactly the body of the source literal at line 279 —
open brace, quoted key `err`, colon, a space, `1`, close brace, CRLF —
regardless of the snapshot state. -/
theorem err_body_of_unmatched (g : Gimli) (buf : List Char)
    (h : routeOf buf = Route.err) :
    handle_request g buf = "\x7b\"err\": 1\x7d\r\n" := by
  unfold handle_request
  rw [h]
  rfl

/-- Witness for `err_body_of_unmatched`: `GET /unknown` matches no
routing test, and the handler yields the fixed error body for it. -/
theorem err_body_of_unmatched_witness :
    routeOf "GET /unknown".toList = Route.err ∧
    handle_request gimli0 "GET /unknown".toList = "\x7b\"err\": 1\x7d\r\n" :=
  ⟨by decide, err_body_of_unmatched gimli0 "GET /unknown".toList (by decide)⟩

/-- Claim C3 counterexample: the error body the code produces contains
a space between the colon and the `1` (and a CRLF terminator), so it is
not the exact text claimed, under either reading of the newline
terminator. -/
theorem err_body_extra_space :
    handle_request gimli0 "GET /unknown".toList = "\x7b\"err\": 1\x7d\r\n" ∧
    handle_request gimli0 "GET /unknown".toList ≠ "\x7b\"err\":1\x7d\r\n" ∧
    handle_request gimli0 "GET /unknown".toList ≠ "\x7b\"err\":1\x7d\n" := by decide

/-- Claim C4 (amended): a sampler cycle that fails before anything is
parsed — the source cannot be opened or no line can be read (and for
`get_netif`, the enumeration itself fails) — returns `G_FAIL` with the
snapshot exactly as it was.  (Cycles that fail later may leave partial
writes behind; see the counterexample.) -/
theorem sampler_fail_unreadable_atomic (g : Gimli) (closeOk : Bool) :
    get_loadavg g none closeOk = (status_t.G_FAIL, g) ∧
    get_cpu_util g none = (status_t.G_FAIL, g) ∧
    get_meminfo g none = (status_t.G_FAIL, g) ∧
    get_netif g none = (status_t.G_FAIL, g) :=
  ⟨rfl, rfl, rfl, rfl⟩

/-- Claim C4 counterexample: a load line whose parse matches only one
value makes the cycle fail, yet the 1-minute field has already been
overwritten through the `sscanf` pointer — the failing cycle is not
atomic with respect to the snapshot.  Concretely, from load = (1, 2, 3)
a one-value line `5` fails the cycle but leaves load0 = 5. -/
theorem load_fail_not_atomic :
    (get_loadavg gC4 (some [5]) true).1 = status_t.G_FAIL ∧
    (get_loadavg gC4 (some [5]) true).2.load0 = 5 ∧
    gC4.load0 = 1 := ⟨rfl, rfl, rfl⟩

/-- Claim C5 (code bug, demonstration): the interface loop checks no
capacity at all, so for ANY capacity `cap` an enumeration of `cap + 1`
IPv4 interfaces drives the stored count to `cap + 1` and writes slot
`cap` — one past the last slot of a `cap`-sized table — instead of
silently dropping the excess. -/
theorem netif_capacity_overrun (cap : ℕ) :
    (get_netif gimli0 (some (List.replicate (cap + 1) ifaV4))).1 = status_t.G_OK ∧
    (get_netif gimli0 (some (List.replicate (cap + 1) ifaV4))).2.netifs = cap + 1 ∧
    (get_netif gimli0 (some (List.replicate (cap + 1) ifaV4))).2.net cap
      = { ifname := "eth0", ipv4 := "10.0.0.1" } ∧
    gimli0.net cap = { ifname := "", ipv4 := "" } := by
  have hall : ∀ ifa ∈ List.replicate (cap + 1) ifaV4,
      ifa.family = some AF_INET → ifa.nameinfo ≠ none := by
    intro a ha
    rw [List.eq_of_mem_replicate ha]
    intro _
    simp [ifaV4]
  obtain ⟨h1, h2, h3⟩ :=
    netifAux_stored (List.replicate (cap + 1) ifaV4) { gimli0 with netifs := 0 } hall
  have h0 : storedNet { gimli0 with netifs := 0 } = [] := rfl
  rw [h0, List.nil_append, netifFilter_replicate, List.map_replicate] at h3
  rw [netifFilter_replicate, List.length_replicate] at h2
  have hmap : ifToNet ifaV4 = { ifname := "eth0", ipv4 := "10.0.0.1" } := rfl
  rw [hmap] at h3
  have hget : get_netif gimli0 (some (List.replicate (cap + 1) ifaV4))
      = netifAux { gimli0 with netifs := 0 } (List.replicate (cap + 1) ifaV4) := rfl
  rw [hget]
  have hn : (netifAux { gimli0 with netifs := 0 } (List.replicate (cap + 1) ifaV4)).2.netifs
      = cap + 1 := by
    rw [h2]
    show 0 + (cap + 1) = cap + 1
    omega
  refine ⟨h1, hn, ?_, rfl⟩
  have hge := storedNet_getElem
    (netifAux { gimli0 with netifs := 0 } (List.replicate (cap + 1) ifaV4)).2 cap
    (by rw [hn]; omega)
  rw [h3, List.getElem?_replicate_of_lt (by omega)] at hge
  exact (Option.some_inj.mp hge).symm

/-- Claim C6: for a successful two-sample CPU read whose delta sum is
nonzero, each stored percentage is the per-field absolute delta divided
by the sum of all five deltas, times 100, and the five stored
percentages sum to exactly 100 in this rational model (the C code only
adds `long double` rounding on top). -/
theorem cpu_pct_sum (g : Gimli) (old newp : gimli_cpu_t)
    (h : cpu_tot (cpu_diff old newp) ≠ 0) :
    (get_cpu_util g (some (old, newp))).1 = status_t.G_OK ∧
    (get_cpu_util g (some (old, newp))).2.cpuUser
      = ((cpu_diff old newp).u : ℚ) / (cpu_tot (cpu_diff old newp) : ℚ) * 100 ∧
    (get_cpu_util g (some (old, newp))).2.cpuNice
      = ((cpu_diff old newp).n : ℚ) / (cpu_tot (cpu_diff old newp) : ℚ) * 100 ∧
    (get_cpu_util g (some (old, newp))).2.cpuSystem
      = ((cpu_diff old newp).s : ℚ) / (cpu_tot (cpu_diff old newp) : ℚ) * 100 ∧
    (get_cpu_util g (some (old, newp))).2.cpuIdle
      = ((cpu_diff old newp).i : ℚ) / (cpu_tot (cpu_diff old newp) : ℚ) * 100 ∧
    (get_cpu_util g (some (old, newp))).2.cpuIowait
      = ((cpu_diff old newp).w : ℚ) / (cpu_tot (cpu_diff old newp) : ℚ) * 100 ∧
    (get_cpu_util g (some (old, newp))).2.cpuUser
      + (get_cpu_util g (some (old, newp))).2.cpuNice
      + (get_cpu_util g (some (old, newp))).2.cpuSystem
      + (get_cpu_util g (some (old, newp))).2.cpuIdle
      + (get_cpu_util g (some (old, newp))).2.cpuIowait = 100 := by
  have ht : ((cpu_tot (cpu_diff old newp) : ℚ)) ≠ 0 := Nat.cast_ne_zero.mpr h
  refine ⟨rfl, rfl, rfl, rfl, rfl, rfl, ?_⟩
  show ((cpu_diff old newp).u : ℚ) / (cpu_tot (cpu_diff old newp) : ℚ) * 100
      + ((cpu_diff old newp).n : ℚ) / (cpu_tot (cpu_diff old newp) : ℚ) * 100
      + ((cpu_diff old newp).s : ℚ) / (cpu_tot (cpu_diff old newp) : ℚ) * 100
      + ((cpu_diff old newp).i : ℚ) / (cpu_tot (cpu_diff old newp) : ℚ) * 100
      + ((cpu_diff old newp).w : ℚ) / (cpu_tot (cpu_diff old newp) : ℚ) * 100 = 100
  have hsum : ((cpu_diff old newp).u : ℚ) + ((cpu_diff old newp).n : ℚ)
      + ((cpu_diff old newp).s : ℚ) + ((cpu_diff old newp).i : ℚ)
      + ((cpu_diff old newp).w : ℚ) = (cpu_tot (cpu_diff old newp) : ℚ) := by
    rw [cpu_tot]
    push_cast
    ring
  field_simp
  linarith [hsum]

/-- Witness for `cpu_pct_sum`: with every counter advancing by one tick
the delta sum is 5, and the theorem applies. -/
theorem cpu_pct_sum_witness :
    cpu_tot (cpu_diff cpuS0 cpuS1) ≠ 0 ∧
    ((get_cpu_util gimli0 (some (cpuS0, cpuS1))).1 = status_t.G_OK ∧
     (get_cpu_util gimli0 (some (cpuS0, cpuS1))).2.cpuUser
       = ((cpu_diff cpuS0 cpuS1).u : ℚ) / (cpu_tot (cpu_diff cpuS0 cpuS1) : ℚ) * 100 ∧
     (get_cpu_util gimli0 (some (cpuS0, cpuS1))).2.cpuNice
       = ((cpu_diff cpuS0 cpuS1).n : ℚ) / (cpu_tot (cpu_diff cpuS0 cpuS1) : ℚ) * 100 ∧
     (get_cpu_util gimli0 (some (cpuS0, cpuS1))).2.cpuSystem
       = ((cpu_diff cpuS0 cpuS1).s : ℚ) / (cpu_tot (cpu_diff cpuS0 cpuS1) : ℚ) * 100 ∧
     (get_cpu_util gimli0 (some (cpuS0, cpuS1))).2.cpuIdle
       = ((cpu_diff cpuS0 cpuS1).i : ℚ) / (cpu_tot (cpu_diff cpuS0 cpuS1) : ℚ) * 100 ∧
     (get_cpu_util gimli0 (some (cpuS0, cpuS1))).2.cpuIowait
       = ((cpu_diff cpuS0 cpuS1).w : ℚ) / (cpu_tot (cpu_diff cpuS0 cpuS1) : ℚ) * 100 ∧
     (get_cpu_util gimli0 (some (cpuS0, cpuS1))).2.cpuUser
       + (get_cpu_util gimli0 (some (cpuS0, cpuS1))).2.cpuNice
       + (get_cpu_util gimli0 (some (cpuS0, cpuS1))).2.cpuSystem
       + (get_cpu_util gimli0 (some (cpuS0, cpuS1))).2.cpuIdle
       + (get_cpu_util gimli0 (some (cpuS0, cpuS1))).2.cpuIowait = 100) :=
  ⟨by decide, cpu_pct_sum gimli0 cpuS0 cpuS1 (by decide)⟩

/-- Claim C7 (amended): `GET /uptime` renders days as uptime div 86400,
hours as uptime div 3600 mod 24 and minutes as uptime div 60 mod 60,
but the three numbers are separated by comma-space and the minutes are
zero-padded to two digits by the `%02lu` conversion. -/
theorem uptime_rendering (g : Gimli) :
    handle_request g "GET /uptime".toList
      = "\x7b\"uptime\":[" ++ toString (g.uptime / 86400) ++ ", "
          ++ toString (g.uptime / 3600 % 24) ++ ", "
          ++ pad2 (g.uptime / 60 % 60) ++ "]\x7d\r\n" := rfl

/-- Claim C7 counterexample: uptime 90061 seconds (1 day, 1 hour, 1
minute) renders as the text `[1, 1, 01]` — zero-padded minutes and
comma-space separators — and not as the claimed `[1,1,1]`. -/
theorem uptime_90061_rendering :
    handle_request { gimli0 with uptime := 90061 } "GET /uptime".toList
      = "\x7b\"uptime\":[1, 1, 01]\x7d\r\n" ∧
    handle_request { gimli0 with uptime := 90061 } "GET /uptime".toList
      ≠ "\x7b\"uptime\":[1,1,1]\x7d\r\n" := by decide

/-- Claim C8: when `getnameinfo` succeeds on every retained record, a
network sampling cycle stores exactly the enumerated entries whose
address family is `AF_INET`, in order — the count is the number of such
entries and the live table holds exactly their name/address pairs. -/
theorem netif_filters_ipv4 (g : Gimli) (lst : List ifaddrs_t)
    (h : ∀ ifa ∈ lst, ifa.family = some AF_INET → ifa.nameinfo ≠ none) :
    (get_netif g (some lst)).1 = status_t.G_OK ∧
    (get_netif g (some lst)).2.netifs = (netifFilter lst).length ∧
    storedNet (get_netif g (some lst)).2 = (netifFilter lst).map ifToNet := by
  obtain ⟨h1, h2, h3⟩ := netifAux_stored lst { g with netifs := 0 } h
  have h0 : storedNet { g with netifs := 0 } = [] := rfl
  rw [h0, List.nil_append] at h3
  rw [show ({ g with netifs := 0 } : Gimli).netifs = 0 from rfl, Nat.zero_add] at h2
  exact ⟨h1, h2, h3⟩

/-- Witness for `netif_filters_ipv4`: an enumeration with one IPv4
interface and one IPv6-only interface yields exactly one stored
entry. -/
theorem netif_filters_ipv4_witness :
    (∀ ifa ∈ enumW, ifa.family = some AF_INET → ifa.nameinfo ≠ none) ∧
    ((get_netif gimli0 (some enumW)).1 = status_t.G_OK ∧
     (get_netif gimli0 (some enumW)).2.netifs = (netifFilter enumW).length ∧
     storedNet (get_netif gimli0 (some enumW)).2 = (netifFilter enumW).map ifToNet) ∧
    (netifFilter enumW).length = 1 ∧
    (netifFilter enumW).map ifToNet = [{ ifname := "eth0", ipv4 := "10.0.0.1" }] :=
  ⟨by decide, netif_filters_ipv4 gimli0 enumW (by decide), by decide, by decide⟩

/-- Claim C9: the core count is written once, by `gimli_mine_cpu`
before its loop, and no sequence of sampler iterations ever changes it;
consequently `GET /cores` renders the same body — determined by that
startup value — after any two histories of sampler activity within the
same run. -/
theorem cores_fixed (g : Gimli) (nproc : ℤ) (steps steps2 : List MineStep) :
    (steps.foldl applyStep (gimli_mine_cpu_start g nproc)).cores = nproc ∧
    handle_request (steps.foldl applyStep (gimli_mine_cpu_start g nproc)) "GET /cores".toList
      = "\x7b\"cores\":" ++ toString nproc ++ "\x7d\r\n" ∧
    handle_request (steps.foldl applyStep (gimli_mine_cpu_start g nproc)) "GET /cores".toList
      = handle_request (steps2.foldl applyStep (gimli_mine_cpu_start g nproc)) "GET /cores".toList := by
  have hc : ∀ st : List MineStep,
      (st.foldl applyStep (gimli_mine_cpu_start g nproc)).cores = nproc := by
    intro st
    rw [foldl_applyStep_cores]
    rfl
  have hb : ∀ st : List MineStep,
      handle_request (st.foldl applyStep (gimli_mine_cpu_start g nproc)) "GET /cores".toList
        = "\x7b\"cores\":" ++ toString nproc ++ "\x7d\r\n" := by
    intro st
    have hcb : handle_request (st.foldl applyStep (gimli_mine_cpu_start g nproc)) "GET /cores".toList
        = coresBody (st.foldl applyStep (gimli_mine_cpu_start g nproc)) := rfl
    rw [hcb]
    unfold coresBody
    rw [hc st]
  exact ⟨hc steps, hb steps, (hb steps).trans (hb steps2).symm⟩

/-- Claim C10 (code bug, demonstration): a request that completely
fills the 1024-byte receive buffer without a trailing newline makes
`handle_connection` write its terminating NUL at index `len`, which is
1024 — one past the last valid index of the buffer.  The claimed bound
`nul index < BUF_SIZE` fails at this input. -/
theorem nul_write_out_of_bounds :
    (List.replicate BUF_SIZE 'A').length = BUF_SIZE ∧
    (List.replicate BUF_SIZE 'A').getLast? ≠ some '\n' ∧
    nul_index (List.replicate BUF_SIZE 'A') = BUF_SIZE ∧
    ¬ nul_index (List.replicate BUF_SIZE 'A') < BUF_SIZE := by
  have hlast : (List.replicate BUF_SIZE 'A').getLast? = some 'A' := by
    have h1 : BUF_SIZE = 1023 + 1 := by norm_num [BUF_SIZE]
    rw [h1, List.replicate_succ', List.getLast?_concat]
  have hni : nul_index (List.replicate BUF_SIZE 'A') = BUF_SIZE := by
    rw [nul_index, hlast, if_neg (by decide), List.length_replicate]
  exact ⟨List.length_replicate _ _, by rw [hlast]; decide, hni, by rw [hni]; omega⟩
